import Mathlib

/-!
Verification of the headshot-generator pipeline (src/headshots.py) against its
specification.  The Python source is embedded shallowly: strings are Lean
strings manipulated through their character lists, spreadsheet sheets are a row
count plus a cell-access function, the ZIP archive is a list of (name, bytes)
entries with the byte blobs abstracted to whether they decode as an image, and
the PDF document is a list of pages of recorded placements together with the
filesystem effects (temporary files, console log lines) of building it.
-/

namespace Headshots

/-! ## Python string primitives, modelled on character lists -/

/-- Python list/str membership test helper: is `pat` a prefix of `l`? -/
def isPrefixList : List Char → List Char → Bool
  | [], _ => true
  | _ :: _, [] => false
  | a :: as, b :: bs => a == b && isPrefixList as bs

/-- Python `pat in hay` (contiguous substring test) on character lists. -/
def csub (pat : List Char) : List Char → Bool
  | [] => isPrefixList pat []
  | c :: t => isPrefixList pat (c :: t) || csub pat t

/-- Python `num in f` for strings: `containsSub hay pat` is `pat in hay`. -/
def containsSub (hay pat : String) : Bool :=
  csub pat.data hay.data

/-- Python `l.endswith(pat)` on character lists. -/
def isSuffixList (pat l : List Char) : Bool :=
  isPrefixList pat.reverse l.reverse

/-- Python `s.strip()`: remove leading and trailing whitespace. -/
def trimL (l : List Char) : List Char :=
  ((l.dropWhile Char.isWhitespace).reverse.dropWhile Char.isWhitespace).reverse

/-- Python `s.rstrip(ch)` for a single strip character. -/
def rstripChar (ch : Char) (l : List Char) : List Char :=
  (l.reverse.dropWhile (fun c => c == ch)).reverse

/-- Python `s.split(",")`. -/
def splitComma : List Char → List (List Char)
  | [] => [[]]
  | c :: t =>
      if c == ',' then [] :: splitComma t
      else
        match splitComma t with
        | [] => [[c]]
        | h :: r => (c :: h) :: r

/-- Python `os.path.splitext(p)[0]` (as in `remove_file_extension`):
the extension starts at the last `.` that lies after the last `/` and is
preceded inside the base name by at least one character that is not a dot. -/
def splitextRoot (l : List Char) : List Char :=
  let rev := l.reverse
  let revBase := rev.takeWhile (fun c => c != '/')
  let pre := revBase.takeWhile (fun c => c != '.')
  if pre.length = revBase.length then l
  else if (revBase.drop (pre.length + 1)).any (fun c => c != '.') then
    l.take (l.length - (pre.length + 1))
  else l

/-- Python `label.rsplit("(", 1)` unpacked into two parts: `none` models the
`ValueError` raised when the label contains no `(`. -/
def rsplitParen (l : List Char) : Option (List Char × List Char) :=
  let afterRev := l.reverse.takeWhile (fun c => c != '(')
  if afterRev.length = l.length then none
  else some (l.take (l.length - (afterRev.length + 1)), afterRev.reverse)

/-! ## Data model -/

/-- An `xlrd` worksheet: `nrows` plus `cell_value(row, col)`.  Cell values are
modelled by their string rendering; an empty/blank cell is the empty string
(which is exactly what `xlrd` reports for blank cells, and is falsy in Python
just as the empty string is). -/
structure Sheet where
  nrows : Nat
  cell_value : Nat → Nat → String

/-- Abstraction of an image byte blob: all that the pipeline observes about the
bytes is whether `PIL.Image.open` + `save` succeed on them. -/
inductive ImgData where
  | ok
  | bad
deriving Repr, DecidableEq

/-! ## Roster Extractor: `get_student_numbers` -/

/-- Normalization applied to a kept cell value in `get_student_numbers`:
`str(...)` then `.strip()`, then if a `.` is present `.rstrip('0').rstrip('.')`. -/
def normalize_student_number (raw : String) : String :=
  let s := String.mk (trimL raw.data)
  if s.data.any (fun c => c == '.') then
    String.mk (rstripChar '.' (rstripChar '0' s.data))
  else s

/-- `get_student_numbers(sheet)`: scan rows `7 .. nrows-1`, read column 0,
skip falsy cells, normalize the rest.  Python `range(7, nrows)` is
`List.range' 7 (nrows - 7)`. -/
def get_student_numbers (sheet : Sheet) : List String :=
  (List.range' 7 (sheet.nrows - 7)).filterMap (fun row_idx =>
    let student_number := sheet.cell_value row_idx 0
    if student_number = "" then none
    else some (normalize_student_number student_number))

/-! ## Archive Matcher: `find_matching_images` -/

/-- Python `f.lower().endswith((".png", ".jpg", ".jpeg"))`. -/
def extOk (f : String) : Bool :=
  let g := f.data.map Char.toLower
  isSuffixList ".png".data g || isSuffixList ".jpg".data g ||
    isSuffixList ".jpeg".data g

/-- Python dict assignment `d[k] = v` on an insertion-ordered association
list: overwrite in place if the key is present, append otherwise. -/
def dictInsert {β : Type} (d : List (String × β)) (k : String) (v : β) :
    List (String × β) :=
  if d.any (fun p => p.1 == k) then
    d.map (fun p => if p.1 == k then (k, v) else p)
  else d ++ [(k, v)]

/-- Python `k in d` for the dict model. -/
def hasKey {β : Type} (d : List (String × β)) (k : String) : Bool :=
  d.any (fun p => p.1 == k)

/-- One step of the matcher's inner scan: for candidate entry name `f`, if it
contains the number and has an accepted extension, read it and store it. -/
def matchStep {β : Type} (z : List (String × β)) (num : String)
    (imgs : List (String × β)) (f : String) : List (String × β) :=
  if containsSub f num && extOk f then
    match z.lookup f with
    | some bytes => dictInsert imgs f bytes
    | none => imgs
  else imgs

/-- `find_matching_images(student_numbers, zip_path)`: the archive is the list
of its entries `(name, bytes)`; `z.namelist()` is the list of names, and
`z.read(f)` is association-list lookup. -/
def find_matching_images {β : Type} (student_numbers : List String)
    (z : List (String × β)) : List (String × β) :=
  student_numbers.foldl (fun images num =>
    (z.map Prod.fst).foldl (matchStep z num) images) []

/-! ## Grid Composer: `create_pdf`

Layout constants from the top of the script. -/

def IMAGES_PER_ROW : Nat := 4
def ROWS_PER_PAGE : Nat := 4
def IMAGES_PER_PAGE : Nat := IMAGES_PER_ROW * ROWS_PER_PAGE

def IMAGE_WIDTH : Nat := 40
def IMAGE_HEIGHT : Nat := 50
def MARGIN_X : Nat := 10
def MARGIN_Y : Nat := 10
def SPACING_X : Nat := 10
def SPACING_Y : Nat := 10
def TEXT_HEIGHT : Nat := 6

/-- `remove_file_extension(filename)`. -/
def remove_file_extension (filename : String) : String :=
  String.mk (splitextRoot filename.data)

/-- The record of one grid cell processed by `create_pdf`: the entry name, the
computed position, whether `pdf.image` ran (committing the image to the page),
and the two label lines if the label-writing code ran. -/
structure Placement where
  filename : String
  x : Nat
  y : Nat
  imageDrawn : Bool
  label : Option (String × String)
deriving Repr, DecidableEq

/-- Filesystem and console effects threaded through `create_pdf`: the
temporary image files currently existing on disk, and the printed lines. -/
structure FsState where
  tempFiles : List String
  logs : List String
deriving Repr, DecidableEq

/-- The temporary file name `f"temp_{i + j}.jpg"`. -/
def tempName (n : Nat) : String := s!"temp_{n}.jpg"

/-- The text of the `UnidentifiedImageError` raised by `PIL.Image.open` on
bytes that are not an image. -/
def decodeErrText : String := "cannot identify image file"

/-- The text of the `ValueError` raised by unpacking `label.rsplit("(", 1)`
into two variables when the label contains no `(`. -/
def unpackErrText : String := "not enough values to unpack (expected 2, got 1)"

/-- The line printed by the `except` clause: `f"Error processing {filename}: {e}"`. -/
def errLine (filename e : String) : String :=
  s!"Error processing {filename}: {e}"

/-- The body of the per-image `try`/`except` in `create_pdf` for the image at
page-start index `i` and in-page index `j`.  Every branch records the grid
cell that was being filled; the `FsState` records which statements ran before
the exception (if any) was caught. -/
def processImage (i j : Nat) (filename : String) (b : ImgData)
    (fs : FsState) : Placement × FsState :=
  let col := j % IMAGES_PER_ROW
  let row := j / IMAGES_PER_ROW
  let x := MARGIN_X + col * (IMAGE_WIDTH + SPACING_X)
  let y := MARGIN_Y + row * (IMAGE_HEIGHT + SPACING_Y + TEXT_HEIGHT * 2)
  match b with
  | ImgData.bad =>
      -- `Image.open` raises before the temporary file is created.
      ({ filename := filename, x := x, y := y, imageDrawn := false,
         label := none },
       { fs with logs := fs.logs ++ [errLine filename decodeErrText] })
  | ImgData.ok =>
      let img_path := tempName (i + j)
      -- `img.save(img_path)` creates the temporary file,
      -- `pdf.image(...)` commits the image to the page.
      let fs1 : FsState := { fs with tempFiles := fs.tempFiles ++ [img_path] }
      match rsplitParen (remove_file_extension filename).data with
      | none =>
          -- `rsplit` unpacking raises; the except clause does not remove
          -- the temporary file.
          ({ filename := filename, x := x, y := y, imageDrawn := true,
             label := none },
           { fs1 with logs := fs1.logs ++ [errLine filename unpackErrText] })
      | some (name, numPart) =>
          -- labels are written, then `os.remove(img_path)` runs.
          ({ filename := filename, x := x, y := y, imageDrawn := true,
             label := some (String.mk (trimL name),
                            String.mk (rstripChar ')' numPart)) },
           { fs1 with tempFiles := fs1.tempFiles.erase img_path })

/-- The inner loop `for j, (filename, img_bytes) in enumerate(page_images)`,
producing the placements of one page. -/
def runChunk (i j : Nat) (es : List (String × ImgData)) (fs : FsState) :
    List Placement × FsState :=
  match es with
  | [] => ([], fs)
  | (filename, b) :: rest =>
      let pr := processImage i j filename b fs
      let r := runChunk i (j + 1) rest pr.2
      (pr.1 :: r.1, r.2)

/-- `n` iterations of the outer loop
`for i in range(0, len(image_list), IMAGES_PER_PAGE)`: each iteration calls
`pdf.add_page()` and lays out the next (up to) 16 entries
`image_list[i : i + IMAGES_PER_PAGE]`. -/
def runPagesN : Nat → Nat → List (String × ImgData) → FsState →
    List (List Placement) × FsState
  | 0, _, _, fs => ([], fs)
  | n + 1, i, l, fs =>
      let p := runChunk i 0 (l.take IMAGES_PER_PAGE) fs
      let r := runPagesN n (i + IMAGES_PER_PAGE) (l.drop IMAGES_PER_PAGE) p.2
      (p.1 :: r.1, r.2)

/-- The outer loop itself: `range(0, len, step)` has exactly
`(len + step - 1) / step` elements, so the loop body runs that many times. -/
def runPages (i : Nat) (l : List (String × ImgData)) (fs : FsState) :
    List (List Placement) × FsState :=
  runPagesN ((l.length + (IMAGES_PER_PAGE - 1)) / IMAGES_PER_PAGE) i l fs

/-- The observable result of `create_pdf`: the pages of the in-memory `FPDF`
object, the leftover temporary files, the console lines, and the output file
written (if any). -/
structure PdfResult where
  pages : List (List Placement)
  tempFiles : List String
  logs : List String
  written : Option String
deriving Repr, DecidableEq

/-- `create_pdf(image_data, output_pdf)`; `image_data` is the insertion-ordered
dict as its item list (`list(image_data.items())`). -/
def create_pdf (image_data : List (String × ImgData)) (output_pdf : String) :
    PdfResult :=
  let r := runPages 0 image_data { tempFiles := [], logs := [] }
  if r.1.length > 0 then
    { pages := r.1, tempFiles := r.2.tempFiles,
      logs := r.2.logs ++ [s!"PDF saved as {output_pdf}"],
      written := some output_pdf }
  else
    { pages := r.1, tempFiles := r.2.tempFiles,
      logs := r.2.logs ++ ["No valid images found. No PDF created."],
      written := none }

/-! ## Sheet Namer: `extract_pdf_name` -/

/-- `extract_pdf_name(cell_value)`: split on `,`; with at least two parts the
name is `f"{day}_{time.replace(':', '')}"` with both parts stripped; with
fewer parts the sentinel `"Unknown"` is returned. -/
def extract_pdf_name (cell_value : String) : String :=
  match splitComma cell_value.data with
  | day :: time :: _ =>
      String.mk (trimL day ++ '_' :: (trimL time).filter (fun c => c != ':'))
  | _ => "Unknown"

/-! ## Orchestrator: the per-sheet body of the `__main__` loop -/

/-- What the `__main__` loop does with one sheet. -/
inductive SheetOutcome where
  | skippedNoName (sheet_name : String)
  | noMatches (sheet_name : String)
  | pdfAttempt (pdf_file : String) (result : PdfResult)
deriving Repr, DecidableEq

/-- One iteration of `for sheet_name in workbook.sheet_names()`: extract the
roster, derive the PDF name from cell `(2, 1)`, skip with a warning if the
name is falsy, otherwise match images and, if any matched, run `create_pdf`
on `f"{pdf_name}.pdf"`. -/
def process_sheet (sheet_name : String) (sheet : Sheet)
    (zipEntries : List (String × ImgData)) : SheetOutcome :=
  let student_numbers := get_student_numbers sheet
  let pdf_name := extract_pdf_name (sheet.cell_value 2 1)
  if pdf_name = "" then SheetOutcome.skippedNoName sheet_name
  else
    let images := find_matching_images student_numbers zipEntries
    let pdf_file := pdf_name ++ ".pdf"
    if images.isEmpty then SheetOutcome.noMatches sheet_name
    else SheetOutcome.pdfAttempt pdf_file (create_pdf images pdf_file)

/-- The whole run: every sheet of the workbook is processed, in order,
against the same archive. -/
def run_workbook (sheets : List (String × Sheet))
    (zipEntries : List (String × ImgData)) : List SheetOutcome :=
  sheets.map (fun p => process_sheet p.1 p.2 zipEntries)

/-! ## Derived (proof-layer) definitions used to state general lemmas -/

/-- Discriminator for the warning-and-skip outcome of the orchestrator. -/
def isSkipUnnamed : SheetOutcome → Bool
  | SheetOutcome.skippedNoName _ => true
  | _ => false

/-- The grid position computed by `create_pdf` for in-page index `j`. -/
def posOf (j : Nat) : Nat × Nat :=
  (MARGIN_X + (j % IMAGES_PER_ROW) * (IMAGE_WIDTH + SPACING_X),
   MARGIN_Y + (j / IMAGES_PER_ROW) * (IMAGE_HEIGHT + SPACING_Y + TEXT_HEIGHT * 2))

/-- The per-page lists of grid positions that `p` pages of the grid layout
assign to `len` remaining entries: each page holds `min 16 len` cells at the
fixed grid positions. -/
def pagePositionsN : Nat → Nat → List (List (Nat × Nat))
  | 0, _ => []
  | p + 1, len =>
      (List.range (min IMAGES_PER_PAGE len)).map posOf ::
        pagePositionsN p (len - IMAGES_PER_PAGE)

/-! ## Lemmas about the Archive Matcher -/

/-- `"" in f` is true for every `f`. -/
lemma csub_nil (l : List Char) : csub [] l = true := by
  cases l <;> simp [csub, isPrefixList]

/-- Key membership in the dict model, in `Prop` form. -/
lemma hasKey_iff {β : Type} (d : List (String × β)) (f : String) :
    hasKey d f = true ↔ ∃ p ∈ d, p.1 = f := by
  simp [hasKey, List.any_eq_true]

/-- `d[k] = v` adds exactly the key `k` to the key set. -/
lemma hasKey_dictInsert_iff {β : Type} (d : List (String × β)) (k : String)
    (v : β) (f : String) :
    hasKey (dictInsert d k v) f = true ↔ (hasKey d f = true ∨ f = k) := by
  simp only [hasKey_iff]
  unfold dictInsert
  by_cases hk : d.any (fun p => p.1 == k)
  · rw [if_pos hk]
    rw [List.any_eq_true] at hk
    obtain ⟨q, hq, hqk⟩ := hk
    rw [beq_iff_eq] at hqk
    constructor
    · rintro ⟨p, hp, hpf⟩
      rw [List.mem_map] at hp
      obtain ⟨w, hw, rfl⟩ := hp
      by_cases h : w.1 == k
      · rw [if_pos h] at hpf
        exact Or.inr hpf.symm
      · rw [if_neg h] at hpf
        exact Or.inl ⟨w, hw, hpf⟩
    · rintro (⟨p, hp, hpf⟩ | rfl)
      · by_cases h : p.1 == k
        · refine ⟨(k, v), List.mem_map.mpr ⟨p, hp, by rw [if_pos h]⟩, ?_⟩
          rw [beq_iff_eq] at h
          rw [← h, hpf]
        · exact ⟨p, List.mem_map.mpr ⟨p, hp, by rw [if_neg h]⟩, hpf⟩
      · exact ⟨(f, v), List.mem_map.mpr ⟨q, hq, by rw [if_pos (beq_iff_eq.mpr hqk)]⟩, rfl⟩
  · rw [if_neg hk]
    constructor
    · rintro ⟨p, hp, hpf⟩
      rcases List.mem_append.mp hp with h | h
      · exact Or.inl ⟨p, h, hpf⟩
      · rw [List.mem_singleton] at h
        subst h
        exact Or.inr hpf.symm
    · rintro (⟨p, hp, hpf⟩ | rfl)
      · exact ⟨p, List.mem_append.mpr (Or.inl hp), hpf⟩
      · exact ⟨(f, v), List.mem_append.mpr (Or.inr (List.mem_singleton.mpr rfl)), rfl⟩

/-- Every name in `z.namelist()` can be `z.read(...)`. -/
lemma lookup_of_mem_keys {β : Type} :
    ∀ (z : List (String × β)) (g : String), g ∈ z.map Prod.fst →
      ∃ b, z.lookup g = some b := by
  intro z
  induction z with
  | nil => simp
  | cons p t ih =>
    intro g hg
    obtain ⟨k, v⟩ := p
    by_cases h : g == k
    · exact ⟨v, by simp [List.lookup, h]⟩
    · rw [List.map_cons, List.mem_cons] at hg
      rcases hg with h1 | h2
      · exact absurd (beq_iff_eq.mpr h1) h
      · obtain ⟨b, hb⟩ := ih g h2
        exact ⟨b, by simp [List.lookup, h, hb]⟩

/-- Effect on the key set of the matcher's scan of all entry names for one
student number. -/
lemma foldl_matchStep_hasKey {β : Type} (z : List (String × β)) (num f : String) :
    ∀ (names : List String) (images : List (String × β)),
      (∀ g ∈ names, ∃ b, z.lookup g = some b) →
      (hasKey (names.foldl (matchStep z num) images) f = true ↔
        (hasKey images f = true ∨
          (f ∈ names ∧ containsSub f num = true ∧ extOk f = true))) := by
  intro names
  induction names with
  | nil => intro images _; simp
  | cons g t ih =>
    intro images hlk
    rw [List.foldl_cons,
      ih (matchStep z num images g) (fun x hx => hlk x (List.mem_cons_of_mem g hx))]
    have hstep : hasKey (matchStep z num images g) f = true ↔
        (hasKey images f = true ∨
          (f = g ∧ containsSub f num = true ∧ extOk f = true)) := by
      unfold matchStep
      by_cases hc : containsSub g num && extOk g
      · obtain ⟨b, hb⟩ := hlk g (List.mem_cons_self g t)
        rw [if_pos hc, hb, hasKey_dictInsert_iff]
        rw [Bool.and_eq_true] at hc
        constructor
        · rintro (h | rfl)
          · exact Or.inl h
          · exact Or.inr ⟨rfl, hc.1, hc.2⟩
        · rintro (h | ⟨rfl, _, _⟩)
          · exact Or.inl h
          · exact Or.inr rfl
      · rw [if_neg hc]
        constructor
        · exact Or.inl
        · rintro (h | ⟨rfl, h1, h2⟩)
          · exact h
          · exact absurd (by simp [h1, h2]) hc
    rw [hstep]
    simp only [List.mem_cons]
    tauto

/-- Key membership in the full matcher result: an entry name is a key iff it
is an archive entry name and some roster number occurs in it as a substring
while its extension is accepted.  Shared characterization lemma. -/
lemma hasKey_find_matching_images {β : Type} (student_numbers : List String)
    (z : List (String × β)) (f : String) :
    hasKey (find_matching_images student_numbers z) f = true ↔
      (f ∈ z.map Prod.fst ∧
        ∃ num ∈ student_numbers, containsSub f num = true ∧ extOk f = true) := by
  have hmain : ∀ (nums : List String) (images : List (String × β)),
      hasKey (nums.foldl (fun images num =>
          (z.map Prod.fst).foldl (matchStep z num) images) images) f = true ↔
        (hasKey images f = true ∨
          ∃ num ∈ nums, f ∈ z.map Prod.fst ∧ containsSub f num = true ∧
            extOk f = true) := by
    intro nums
    induction nums with
    | nil => intro images; simp
    | cons num t ih =>
      intro images
      rw [List.foldl_cons, ih,
        foldl_matchStep_hasKey z num f (z.map Prod.fst) images
          (lookup_of_mem_keys z)]
      simp only [List.mem_cons]
      constructor
      · rintro ((h | ⟨h1, h2, h3⟩) | ⟨n, hn, h1, h2, h3⟩)
        · exact Or.inl h
        · exact Or.inr ⟨num, Or.inl rfl, h1, h2, h3⟩
        · exact Or.inr ⟨n, Or.inr hn, h1, h2, h3⟩
      · rintro (h | ⟨n, hn | hn, h1, h2, h3⟩)
        · exact Or.inl (Or.inl h)
        · subst hn; exact Or.inl (Or.inr ⟨h1, h2, h3⟩)
        · exact Or.inr ⟨n, hn, h1, h2, h3⟩
  unfold find_matching_images
  rw [hmain]
  simp only [hasKey, List.any_nil, Bool.false_eq_true, false_or]
  constructor
  · rintro ⟨n, hn, h1, h2, h3⟩
    exact ⟨h1, n, hn, h2, h3⟩
  · rintro ⟨h1, n, hn, h2, h3⟩
    exact ⟨n, hn, h1, h2, h3⟩

/-! ## Claim C6 -/

/-- C6, counterexample: the claim quantifies over every StudentNumber `S` of
the roster and asserts inclusion iff `S` is a substring with an accepted
extension.  With roster `["111", "222"]` and archive entry `"A(111).jpg"`,
the entry is included although `"222"` is a roster number that is not a
substring of it, so the per-number biconditional is false. -/
theorem find_matching_images_per_number_iff_fails :
    hasKey (find_matching_images ["111", "222"]
        [("A(111).jpg", ImgData.ok)]) "A(111).jpg" = true ∧
    "222" ∈ (["111", "222"] : List String) ∧
    containsSub "A(111).jpg" "222" = false := by
  decide

/-- C6, amended: an archive entry name is included in the matcher's result
mapping iff it is one of the archive's entry names and SOME StudentNumber of
the roster sequence is a (case-sensitive) substring of it while its extension,
compared case-insensitively, is one of `.png`, `.jpg`, `.jpeg`. -/
theorem find_matching_images_mem_iff {β : Type} (student_numbers : List String)
    (z : List (String × β)) (f : String) :
    hasKey (find_matching_images student_numbers z) f = true ↔
      (f ∈ z.map Prod.fst ∧
        ∃ num ∈ student_numbers, containsSub f num = true ∧ extOk f = true) :=
  hasKey_find_matching_images student_numbers z f

/-! ## Claim C9 -/

/-- C9: if the roster sequence contains the empty string, every archive entry
whose extension (case-insensitively) is `.png`, `.jpg` or `.jpeg` is included
in the matcher's result, since `"" in name` holds for every name. -/
theorem empty_number_matches_every_image {β : Type} (student_numbers : List String)
    (z : List (String × β)) (f : String) (hnum : "" ∈ student_numbers)
    (hf : f ∈ z.map Prod.fst) (hext : extOk f = true) :
    hasKey (find_matching_images student_numbers z) f = true := by
  rw [hasKey_find_matching_images]
  exact ⟨hf, "", hnum, csub_nil f.data, hext⟩

/-- C9 witness: a roster containing `""` picks up `"photo.JPG"` (whose name
contains no roster number other than vacuously) at a concrete input. -/
theorem empty_number_matches_every_image_witness :
    hasKey (find_matching_images ["", "555"]
      [("photo.JPG", (0 : Nat))]) "photo.JPG" = true :=
  empty_number_matches_every_image ["", "555"] [("photo.JPG", 0)] "photo.JPG"
    (by decide) (by decide) (by decide)

/-! ## Claim C4 -/

/-- C4, counterexample: a whitespace-only cell is truthy in Python, so the
row is kept, but normalization then produces the empty string, which appears
in the returned sequence — refuting the claim that every returned
StudentNumber is non-empty after normalization. -/
theorem get_student_numbers_keeps_empty_normalization :
    get_student_numbers ⟨8, fun r c => if r = 7 ∧ c = 0 then "   " else ""⟩ =
      [""] ∧
    normalize_student_number "   " = "" := by
  decide

/-- C4, amended: a source row whose RAW cell value is empty/falsy is dropped;
every returned value is the normalization of some non-empty raw cell value in
column 0 of a row with index at least 7 — but since the emptiness test
precedes normalization, the returned value itself may be empty (e.g. for a
whitespace-only cell). -/
theorem get_student_numbers_mem_characterization (sheet : Sheet) (v : String)
    (hv : v ∈ get_student_numbers sheet) :
    ∃ row_idx, 7 ≤ row_idx ∧ row_idx < sheet.nrows ∧
      sheet.cell_value row_idx 0 ≠ "" ∧
      v = normalize_student_number (sheet.cell_value row_idx 0) := by
  unfold get_student_numbers at hv
  rw [List.mem_filterMap] at hv
  obtain ⟨r, hr, hfr⟩ := hv
  rw [List.mem_range'_1] at hr
  by_cases hcell : sheet.cell_value r 0 = ""
  · rw [if_pos hcell] at hfr
    exact absurd hfr (by simp)
  · rw [if_neg hcell] at hfr
    exact ⟨r, hr.1, by omega, hcell, (Option.some_inj.mp hfr).symm⟩

/-- C4 witness: the characterization applied to a one-row sheet holding
`"12345.0"`. -/
theorem get_student_numbers_mem_characterization_witness :
    ∃ row_idx, 7 ≤ row_idx ∧
      row_idx < (Sheet.mk 8 (fun r c =>
        if r = 7 ∧ c = 0 then "12345.0" else "")).nrows ∧
      (Sheet.mk 8 (fun r c =>
        if r = 7 ∧ c = 0 then "12345.0" else "")).cell_value row_idx 0 ≠ "" ∧
      "12345" = normalize_student_number ((Sheet.mk 8 (fun r c =>
        if r = 7 ∧ c = 0 then "12345.0" else "")).cell_value row_idx 0) :=
  get_student_numbers_mem_characterization
    (Sheet.mk 8 (fun r c => if r = 7 ∧ c = 0 then "12345.0" else ""))
    "12345" (by decide)

/-! ## Claim C5 -/

/-- C5: the extracted roster never depends on rows before index 7 or on any
column other than 0 (first conjunct: two sheets that agree on column 0 of
rows 7..nrows-1 extract the same roster, whatever their other cells hold);
`"12345.0"` normalizes to `"12345"`, `"  98765  "` to `"98765"`, and an
empty column-0 cell contributes nothing. -/
theorem roster_rows_and_normalization :
    (∀ s t : Sheet, s.nrows = t.nrows →
      (∀ r, 7 ≤ r → r < s.nrows → s.cell_value r 0 = t.cell_value r 0) →
      get_student_numbers s = get_student_numbers t) ∧
    get_student_numbers
      ⟨8, fun r c => if r = 7 ∧ c = 0 then "12345.0" else "junk(0).jpg"⟩ =
      ["12345"] ∧
    get_student_numbers
      ⟨8, fun r c => if r = 7 ∧ c = 0 then "  98765  " else "junk(0).jpg"⟩ =
      ["98765"] ∧
    get_student_numbers
      ⟨9, fun r c => if r = 8 ∧ c = 0 then "222"
          else if r = 7 ∧ c = 0 then "" else "junk"⟩ = ["222"] := by
  refine ⟨?_, by decide, by decide, by decide⟩
  intro s t hn hc
  unfold get_student_numbers
  rw [hn]
  apply List.filterMap_congr
  intro r hr
  rw [List.mem_range'_1] at hr
  rw [hc r hr.1 (by omega)]

/-- C5 witness: two sheets differing only in row 0 extract the same roster. -/
theorem roster_rows_and_normalization_witness :
    get_student_numbers ⟨8, fun r _ => if r = 0 then "AAA" else "111"⟩ =
      get_student_numbers ⟨8, fun r _ => if r = 0 then "BBB" else "111"⟩ :=
  roster_rows_and_normalization.1
    ⟨8, fun r _ => if r = 0 then "AAA" else "111"⟩
    ⟨8, fun r _ => if r = 0 then "BBB" else "111"⟩ rfl
    (fun r h1 _ => by
      have hr0 : r ≠ 0 := by omega
      simp [hr0])

/-! ## Claims C10 and C1: the Sheet Namer sentinel and the skip branch -/

/-- The Sheet Namer can never return the empty string: the two-part branch
returns a string containing at least the `_` separator, and the fallback is
the literal `"Unknown"`. -/
lemma extract_pdf_name_data_ne_nil (s : String) :
    (extract_pdf_name s).data ≠ [] := by
  unfold extract_pdf_name
  rcases hsp : splitComma s.data with _ | ⟨d, _ | ⟨t, rest⟩⟩ <;> simp

/-- C10: `extract_pdf_name` always returns a non-empty string, so the
orchestrator's `if not pdf_name` branch that would skip a sheet is
unreachable: no sheet is ever skipped for want of a name. -/
theorem extract_pdf_name_never_falsy (s sheet_name : String) (sheet : Sheet)
    (zipEntries : List (String × ImgData)) :
    0 < (extract_pdf_name s).length ∧
    isSkipUnnamed (process_sheet sheet_name sheet zipEntries) = false := by
  constructor
  · exact List.length_pos.mpr (extract_pdf_name_data_ne_nil s)
  · have h2 := extract_pdf_name_data_ne_nil (sheet.cell_value 2 1)
    unfold process_sheet
    rw [if_neg (fun he => h2 (congrArg String.data he))]
    by_cases himg :
        (find_matching_images (get_student_numbers sheet) zipEntries).isEmpty
    · rw [if_pos himg]; rfl
    · rw [if_neg himg]; rfl

/-- C1: with header cell `(2, 1)` holding `"Monday"` (no comma), the Sheet
Namer returns the sentinel `"Unknown"`; the orchestrator's guard `if not
pdf_name` does not fire on this truthy string, so the sheet is NOT skipped —
a PDF named `"Unknown.pdf"` is attempted, contradicting the documented
warn-and-skip behaviour for the sentinel. -/
theorem unknown_sheet_name_not_skipped :
    extract_pdf_name "Monday" = "Unknown" ∧
    run_workbook
        [("Sheet1", ⟨8, fun r c => if r = 2 ∧ c = 1 then "Monday"
            else if r = 7 ∧ c = 0 then "111" else ""⟩)]
        [("A(111).jpg", ImgData.ok)] =
      [SheetOutcome.pdfAttempt "Unknown.pdf"
        { pages := [[{ filename := "A(111).jpg", x := 10, y := 10,
                       imageDrawn := true, label := some ("A", "111") }]],
          tempFiles := [],
          logs := ["PDF saved as Unknown.pdf"],
          written := some "Unknown.pdf" }] := by
  constructor
  · decide
  · decide

/-! ## Lemmas about the Grid Composer -/

/-- `n` iterations of the page loop add exactly `n` pages, regardless of how
many entries remain or succeed. -/
lemma runPagesN_length (n : Nat) :
    ∀ (i : Nat) (l : List (String × ImgData)) (fs : FsState),
      (runPagesN n i l fs).1.length = n := by
  induction n with
  | zero => intro i l fs; rfl
  | succ m ih => intro i l fs; simp [runPagesN, ih]

/-! ## Claim C2 -/

/-- C2, counterexample: on the one-entry input whose bytes do not decode,
every per-image attempt fails, yet a page was added, so the document is
written all the same — refuting the claim that zero successful placements
suppress the output file. -/
theorem pdf_written_when_all_placements_fail :
    (create_pdf [("bad.jpg", ImgData.bad)] "out.pdf").written = some "out.pdf" ∧
    ((create_pdf [("bad.jpg", ImgData.bad)] "out.pdf").pages.all
      (fun page => page.all (fun p => !p.imageDrawn))) = true := by
  decide

/-- C2, amended: no output file is written exactly when the input mapping is
empty (and the caller is then informed by the "No valid images" message); for
any non-empty input a file is written, because a page is added for every
16-entry group whether or not any placement on it succeeded. -/
theorem create_pdf_written_iff_input_nonempty
    (image_data : List (String × ImgData)) (output_pdf : String) :
    ((create_pdf image_data output_pdf).written = none ↔ image_data = []) ∧
    (create_pdf [] output_pdf).logs =
      ["No valid images found. No PDF created."] := by
  constructor
  · unfold create_pdf runPages
    simp only [runPagesN_length]
    split
    · next h =>
        simp only [Option.some_ne_none, false_iff]
        intro heq
        subst heq
        simp [IMAGES_PER_PAGE, IMAGES_PER_ROW, ROWS_PER_PAGE] at h
    · next h =>
        simp only [true_iff]
        rw [← List.length_eq_zero]
        simp only [IMAGES_PER_PAGE, IMAGES_PER_ROW, ROWS_PER_PAGE] at h
        omega
  · rfl

/-! ## Claim C3 -/

/-- C3 (code bug): for an entry whose bytes decode but whose label has no
`(`, the temporary file `temp_0.jpg` is saved, then the `rsplit` unpacking
raises; the `except` clause logs the error but never removes the file, so it
is still on disk when `create_pdf` returns — the cleanup is not on all exit
paths. -/
theorem temp_file_leaked_on_label_failure :
    (create_pdf [("NoParen.jpg", ImgData.ok)] "o.pdf").tempFiles =
      ["temp_0.jpg"] ∧
    errLine "NoParen.jpg" unpackErrText ∈
      (create_pdf [("NoParen.jpg", ImgData.ok)] "o.pdf").logs := by
  decide

/-! ## Claim C7 -/

/-- Whatever happens inside the `try`, the recorded cell position is the one
computed from the in-page index `j`. -/
lemma processImage_pos (i j : Nat) (f : String) (b : ImgData) (fs : FsState) :
    ((processImage i j f b fs).1.x, (processImage i j f b fs).1.y) = posOf j := by
  cases b with
  | bad => rfl
  | ok =>
      rcases h : rsplitParen (remove_file_extension f).data with _ | ⟨name, numPart⟩ <;>
        simp [processImage, h, posOf]

/-- The positions laid out on one page are those of in-page indices
`j, j+1, ...` in order. -/
lemma runChunk_positions (es : List (String × ImgData)) :
    ∀ (i j : Nat) (fs : FsState),
      (runChunk i j es fs).1.map (fun p => (p.x, p.y)) =
        (List.range es.length).map (fun t => posOf (j + t)) := by
  induction es with
  | nil => intro i j fs; rfl
  | cons e rest ih =>
      intro i j fs
      obtain ⟨f, b⟩ := e
      simp only [runChunk, List.map_cons, List.length_cons,
        List.range_succ_eq_map, List.map_map]
      rw [ih i (j + 1)]
      congr 1
      · have := processImage_pos i j f b fs
        simpa using this
      · apply List.map_congr_left
        intro t _
        simp only [Function.comp]
        congr 1
        omega

/-- The pages produced by `n` iterations of the page loop hold exactly the
grid positions described by `pagePositionsN n`. -/
lemma runPagesN_positions (n : Nat) :
    ∀ (i : Nat) (l : List (String × ImgData)) (fs : FsState),
      (runPagesN n i l fs).1.map (fun page => page.map (fun p => (p.x, p.y))) =
        pagePositionsN n l.length := by
  induction n with
  | zero => intro i l fs; rfl
  | succ m ih =>
      intro i l fs
      simp only [runPagesN, pagePositionsN, List.map_cons]
      rw [runChunk_positions, ih, List.length_take, List.length_drop]
      congr 1
      apply List.map_congr_left
      intro t _
      simp

/-- The `pages` component of `create_pdf` is the page-loop output, whichever
branch of the final write decision is taken. -/
lemma create_pdf_pages (image_data : List (String × ImgData)) (out : String) :
    (create_pdf image_data out).pages =
      (runPages 0 image_data { tempFiles := [], logs := [] }).1 := by
  simp only [create_pdf]
  split <;> rfl

/-- C7: an input of exactly 33 entries yields exactly 3 pages, whose cells
number 16, 16 and 1; the single cell of the last page sits at grid position
(row 0, col 0), i.e. at `x = MARGIN_X`, `y = MARGIN_Y`. -/
theorem create_pdf_33_pagination (l : List (String × ImgData)) (out : String)
    (h : l.length = 33) :
    (create_pdf l out).pages.length = 3 ∧
    (create_pdf l out).pages.map List.length = [16, 16, 1] ∧
    ((create_pdf l out).pages.map
      (fun page => page.map (fun p => (p.x, p.y)))).getLast? =
      some [(MARGIN_X, MARGIN_Y)] := by
  have hdiv : (33 + (IMAGES_PER_PAGE - 1)) / IMAGES_PER_PAGE = 3 := by decide
  have hpos : (create_pdf l out).pages.map
      (fun page => page.map (fun p => (p.x, p.y))) = pagePositionsN 3 33 := by
    rw [create_pdf_pages]
    unfold runPages
    rw [runPagesN_positions, h, hdiv]
  refine ⟨?_, ?_, ?_⟩
  · have h1 := congrArg List.length hpos
    rw [List.length_map] at h1
    rw [h1]
    decide
  · have h2 : (create_pdf l out).pages.map List.length =
        ((create_pdf l out).pages.map
          (fun page => page.map (fun p => (p.x, p.y)))).map List.length := by
      rw [List.map_map]
      apply List.map_congr_left
      intro page _
      simp
    rw [h2, hpos]
    decide
  · rw [hpos]
    decide

/-- C7 witness: the pagination theorem applied to a concrete 33-entry input. -/
theorem create_pdf_33_pagination_witness :
    (List.replicate 33 ("A(1).jpg", ImgData.ok)).length = 33 ∧
    ((create_pdf (List.replicate 33 ("A(1).jpg", ImgData.ok)) "w.pdf").pages.length = 3 ∧
     (create_pdf (List.replicate 33 ("A(1).jpg", ImgData.ok)) "w.pdf").pages.map
       List.length = [16, 16, 1] ∧
     ((create_pdf (List.replicate 33 ("A(1).jpg", ImgData.ok)) "w.pdf").pages.map
       (fun page => page.map (fun p => (p.x, p.y)))).getLast? =
       some [(MARGIN_X, MARGIN_Y)]) :=
  ⟨by decide, create_pdf_33_pagination _ "w.pdf" (by decide)⟩

/-! ## Claim C8 -/

/-- The recorded cell always carries the entry's own name. -/
lemma processImage_filename (i j : Nat) (f : String) (b : ImgData)
    (fs : FsState) : (processImage i j f b fs).1.filename = f := by
  cases b with
  | bad => rfl
  | ok =>
      rcases h : rsplitParen (remove_file_extension f).data with _ | ⟨name, numPart⟩ <;>
        simp [processImage, h]

/-- Processing one image never erases earlier console lines. -/
lemma processImage_logs_mono (i j : Nat) (f : String) (b : ImgData)
    (fs : FsState) (m : String) (hm : m ∈ fs.logs) :
    m ∈ (processImage i j f b fs).2.logs := by
  cases b with
  | bad => exact List.mem_append_left _ hm
  | ok =>
      rcases h : rsplitParen (remove_file_extension f).data with _ | ⟨name, numPart⟩
      · simp only [processImage, h]
        exact List.mem_append_left _ hm
      · simp only [processImage, h]
        exact hm

/-- One page records exactly one cell per entry of its slice. -/
lemma runChunk_length (es : List (String × ImgData)) :
    ∀ (i j : Nat) (fs : FsState), (runChunk i j es fs).1.length = es.length := by
  induction es with
  | nil => intro i j fs; rfl
  | cons e rest ih =>
      intro i j fs
      obtain ⟨f, b⟩ := e
      simp [runChunk, ih]

/-- The cells of one page carry the entry names of its slice, in order. -/
lemma runChunk_filenames (es : List (String × ImgData)) :
    ∀ (i j : Nat) (fs : FsState),
      (runChunk i j es fs).1.map Placement.filename = es.map Prod.fst := by
  induction es with
  | nil => intro i j fs; rfl
  | cons e rest ih =>
      intro i j fs
      obtain ⟨f, b⟩ := e
      simp [runChunk, ih, processImage_filename]

/-- A page's processing never erases earlier console lines. -/
lemma runChunk_logs_mono (es : List (String × ImgData)) :
    ∀ (i j : Nat) (fs : FsState) (m : String), m ∈ fs.logs →
      m ∈ (runChunk i j es fs).2.logs := by
  induction es with
  | nil => intro i j fs m hm; exact hm
  | cons e rest ih =>
      intro i j fs m hm
      obtain ⟨f, b⟩ := e
      simp only [runChunk]
      exact ih i (j + 1) _ m (processImage_logs_mono i j f b fs m hm)

/-- Per-cell outcome of one page: cells are paired with their entries in
order; an undecodable entry leaves its cell blank and is logged; a decodable
entry is drawn, and if its label has no `(` the label lines are missing and
the error is logged; in each case the error line carries the entry name. -/
lemma runChunk_cells (es : List (String × ImgData)) :
    ∀ (i j : Nat) (fs : FsState) (pr : Placement × (String × ImgData)),
      pr ∈ (runChunk i j es fs).1.zip es →
      pr.1.filename = pr.2.1 ∧
      (pr.2.2 = ImgData.bad →
        pr.1.imageDrawn = false ∧ pr.1.label = none ∧
        errLine pr.2.1 decodeErrText ∈ (runChunk i j es fs).2.logs) ∧
      (pr.2.2 = ImgData.ok →
        pr.1.imageDrawn = true ∧
        (rsplitParen (remove_file_extension pr.2.1).data = none →
          pr.1.label = none ∧
          errLine pr.2.1 unpackErrText ∈ (runChunk i j es fs).2.logs)) := by
  induction es with
  | nil => intro i j fs pr hpr; simp [runChunk] at hpr
  | cons e rest ih =>
      intro i j fs pr hpr
      obtain ⟨f, b⟩ := e
      simp only [runChunk, List.zip_cons_cons, List.mem_cons] at hpr
      simp only [runChunk]
      rcases hpr with rfl | hpr
      · refine ⟨processImage_filename i j f b fs, ?_, ?_⟩
        · intro hb
          cases b with
          | ok => exact absurd hb (by simp)
          | bad =>
              refine ⟨rfl, rfl, ?_⟩
              apply runChunk_logs_mono
              exact List.mem_append_right _ (List.mem_singleton.mpr rfl)
        · intro hb
          cases b with
          | bad => exact absurd hb (by simp)
          | ok =>
              rcases hsp : rsplitParen (remove_file_extension f).data with _ | ⟨name, numPart⟩
              · refine ⟨by simp [processImage, hsp], fun _ => ⟨by simp [processImage, hsp], ?_⟩⟩
                apply runChunk_logs_mono
                simp [processImage, hsp]
              · refine ⟨by simp [processImage, hsp], fun hn => ?_⟩
                exact absurd hn (by simp [hsp])
      · exact ih i (j + 1) _ pr hpr

/-- The page loop never erases earlier console lines. -/
lemma runPagesN_logs_mono (n : Nat) :
    ∀ (i : Nat) (l : List (String × ImgData)) (fs : FsState) (m : String),
      m ∈ fs.logs → m ∈ (runPagesN n i l fs).2.logs := by
  induction n with
  | zero => intro i l fs m hm; exact hm
  | succ p ih =>
      intro i l fs m hm
      simp only [runPagesN]
      exact ih _ _ _ m (runChunk_logs_mono _ i 0 fs m hm)

/-- Flattening the pages of `n` loop iterations recovers the names of the
first `16 * n` entries, in order: no failure drops or aborts later cells. -/
lemma runPagesN_flatten_filenames (n : Nat) :
    ∀ (i : Nat) (l : List (String × ImgData)) (fs : FsState),
      (runPagesN n i l fs).1.flatten.map Placement.filename =
        (l.take (IMAGES_PER_PAGE * n)).map Prod.fst := by
  induction n with
  | zero => intro i l fs; simp [runPagesN]
  | succ p ih =>
      intro i l fs
      simp only [runPagesN, List.flatten_cons, List.map_append]
      rw [runChunk_filenames, ih, ← List.map_append]
      congr 1
      rw [← List.take_add]
      congr 1
      ring

/-- Per-cell outcome across all pages of the loop. -/
lemma runPagesN_cells (n : Nat) :
    ∀ (i : Nat) (l : List (String × ImgData)) (fs : FsState)
      (pr : Placement × (String × ImgData)),
      pr ∈ ((runPagesN n i l fs).1.flatten).zip (l.take (IMAGES_PER_PAGE * n)) →
      pr.1.filename = pr.2.1 ∧
      (pr.2.2 = ImgData.bad →
        pr.1.imageDrawn = false ∧ pr.1.label = none ∧
        errLine pr.2.1 decodeErrText ∈ (runPagesN n i l fs).2.logs) ∧
      (pr.2.2 = ImgData.ok →
        pr.1.imageDrawn = true ∧
        (rsplitParen (remove_file_extension pr.2.1).data = none →
          pr.1.label = none ∧
          errLine pr.2.1 unpackErrText ∈ (runPagesN n i l fs).2.logs)) := by
  induction n with
  | zero => intro i l fs pr hpr; simp [runPagesN] at hpr
  | succ p ih =>
      intro i l fs pr hpr
      have hmul : IMAGES_PER_PAGE * (p + 1) = IMAGES_PER_PAGE + IMAGES_PER_PAGE * p := by
        ring
      simp only [runPagesN, List.flatten_cons] at hpr ⊢
      rw [hmul, List.take_add,
        List.zip_append (runChunk_length (l.take IMAGES_PER_PAGE) i 0 fs)] at hpr
      rcases List.mem_append.mp hpr with hpr | hpr
      · have h := runChunk_cells (l.take IMAGES_PER_PAGE) i 0 fs pr hpr
        refine ⟨h.1, ?_, ?_⟩
        · intro hb
          obtain ⟨h1, h2, h3⟩ := h.2.1 hb
          exact ⟨h1, h2, runPagesN_logs_mono p _ _ _ _ h3⟩
        · intro hb
          obtain ⟨h1, h2⟩ := h.2.2 hb
          refine ⟨h1, fun hn => ?_⟩
          obtain ⟨h3, h4⟩ := h2 hn
          exact ⟨h3, runPagesN_logs_mono p _ _ _ _ h4⟩
      · exact ih (i + IMAGES_PER_PAGE) (l.drop IMAGES_PER_PAGE) _ pr hpr

/-- Lines printed during the page loop survive into the final result. -/
lemma create_pdf_logs_mono (image_data : List (String × ImgData)) (out m : String)
    (hm : m ∈ (runPagesN
        ((image_data.length + (IMAGES_PER_PAGE - 1)) / IMAGES_PER_PAGE) 0
        image_data { tempFiles := [], logs := [] }).2.logs) :
    m ∈ (create_pdf image_data out).logs := by
  simp only [create_pdf, runPages]
  split <;> exact List.mem_append_left _ hm

/-- The whole input list has at most `16 * ceil(len / 16)` entries. -/
lemma length_le_pages_capacity (len : Nat) :
    len ≤ IMAGES_PER_PAGE * ((len + (IMAGES_PER_PAGE - 1)) / IMAGES_PER_PAGE) := by
  simp only [IMAGES_PER_PAGE, IMAGES_PER_ROW, ROWS_PER_PAGE]
  omega

/-- C8, amended: every entry of the input gets its own grid cell, in order —
no per-image failure aborts the page or the document, and each failure is
caught and logged in a line carrying the entry name and the error text.  An
entry whose bytes do not decode leaves its cell blank (no image, no label);
an entry whose label lacks `(` fails only after `pdf.image` has run, so its
image remains in the cell and only the label lines are missing. -/
theorem create_pdf_per_image_isolation (image_data : List (String × ImgData))
    (output_pdf : String) :
    (create_pdf image_data output_pdf).pages.flatten.map Placement.filename =
      image_data.map Prod.fst ∧
    ∀ pr ∈ ((create_pdf image_data output_pdf).pages.flatten).zip image_data,
      pr.1.filename = pr.2.1 ∧
      (pr.2.2 = ImgData.bad →
        pr.1.imageDrawn = false ∧ pr.1.label = none ∧
        errLine pr.2.1 decodeErrText ∈ (create_pdf image_data output_pdf).logs) ∧
      (pr.2.2 = ImgData.ok →
        pr.1.imageDrawn = true ∧
        (rsplitParen (remove_file_extension pr.2.1).data = none →
          pr.1.label = none ∧
          errLine pr.2.1 unpackErrText ∈
            (create_pdf image_data output_pdf).logs)) := by
  have htake : image_data.take (IMAGES_PER_PAGE *
      ((image_data.length + (IMAGES_PER_PAGE - 1)) / IMAGES_PER_PAGE)) =
      image_data :=
    List.take_of_length_le (length_le_pages_capacity image_data.length)
  constructor
  · rw [create_pdf_pages]
    unfold runPages
    rw [runPagesN_flatten_filenames, htake]
  · intro pr hpr
    rw [create_pdf_pages] at hpr
    unfold runPages at hpr
    have h := runPagesN_cells
      ((image_data.length + (IMAGES_PER_PAGE - 1)) / IMAGES_PER_PAGE) 0
      image_data { tempFiles := [], logs := [] } pr (by rw [htake]; exact hpr)
    refine ⟨h.1, ?_, ?_⟩
    · intro hb
      obtain ⟨h1, h2, h3⟩ := h.2.1 hb
      exact ⟨h1, h2, create_pdf_logs_mono image_data output_pdf _ h3⟩
    · intro hb
      obtain ⟨h1, h2⟩ := h.2.2 hb
      refine ⟨h1, fun hn => ?_⟩
      obtain ⟨h3, h4⟩ := h2 hn
      exact ⟨h3, create_pdf_logs_mono image_data output_pdf _ h4⟩

/-- C8 witness: the failure of the undecodable entry `"bad.jpg"` is logged
with its name and the decode error text, via the isolation theorem. -/
theorem create_pdf_per_image_isolation_witness :
    errLine "bad.jpg" decodeErrText ∈
      (create_pdf [("bad.jpg", ImgData.bad)] "w2.pdf").logs := by
  have h := (create_pdf_per_image_isolation [("bad.jpg", ImgData.bad)] "w2.pdf").2
    ({ filename := "bad.jpg", x := 10, y := 10, imageDrawn := false,
       label := none }, ("bad.jpg", ImgData.bad)) (by decide)
  exact (h.2.1 rfl).2.2

/-- C8, counterexample to the claim as stated: the claim says a failed image
is skipped with its grid cell left blank.  For the decodable entry
`"Jean Dupont.jpg"` whose label has no `(`, the failure is indeed caught and
logged, but the cell is NOT blank: the image had already been committed to
the page before the exception, so the page keeps the drawn image (only its
label is missing). -/
theorem label_failure_cell_not_blank :
    ((create_pdf [("Jean Dupont.jpg", ImgData.ok)] "o2.pdf").pages =
      [[{ filename := "Jean Dupont.jpg", x := 10, y := 10, imageDrawn := true,
          label := none }]]) ∧
    errLine "Jean Dupont.jpg" unpackErrText ∈
      (create_pdf [("Jean Dupont.jpg", ImgData.ok)] "o2.pdf").logs := by
  decide

end Headshots
